import Mathlib

/-!
Verification development for the parakeet-kbd repository.

Shallow embedding of the voice-session controller (`parakeet_claude/recorder.py`),
the trigger detector (`parakeet_claude/key_detect.py`), the transcription client
(`parakeet_claude/client.py`), the framed wire protocol
(`parakeet_server/protocol.py`) and the server request dispatch
(`parakeet_server/server.py`).

Byte strings are modelled as `List Nat` (each element one byte, `< 256` where it
matters); Python exceptions are modelled with explicit error values; the
background thread of a recording cycle is modelled by an interleaving of atomic
events with the foreground `toggle()` calls.
-/

/-! ## Trigger detector — `parakeet_claude/key_detect.py`

`KeyDetector.feed(data)` calls `data.find(TRIGGER_KEY)`; `-1` is modelled as
`none`.  `bytes.find` returns the least index at which the needle occurs
(`0` for an empty needle). -/

/-- Model of Python `data.find(needle)` on bytes: the least index where
`needle` occurs as a contiguous substring of `data`, else `none`. -/
def findSub (needle : List Nat) : List Nat → Option Nat
  | [] => if ([] : List Nat).take needle.length = needle then some 0 else none
  | b :: rest =>
    if (b :: rest).take needle.length = needle then some 0
    else (findSub needle rest).map (· + 1)

/-- `needle` occurs in `data` at index `i` (a full, in-bounds match). -/
def OccursAt (needle data : List Nat) (i : Nat) : Prop :=
  (data.drop i).take needle.length = needle

instance (needle data : List Nat) (i : Nat) : Decidable (OccursAt needle data i) :=
  inferInstanceAs (Decidable ((data.drop i).take needle.length = needle))

/-- Model of `KeyDetector.feed` (`key_detect.py` lines 13-29): find the first
occurrence of the trigger sequence; if absent return the chunk unchanged with
`False`; otherwise strip that occurrence and return the remainder, or `None`
when the remainder is empty (`passthrough or None`), with `True`. -/
def feed (trigger data : List Nat) : Option (List Nat) × Bool :=
  match findSub trigger data with
  | none => (some data, false)
  | some idx =>
    let before := data.take idx
    let after := data.drop (idx + trigger.length)
    let passthrough := before ++ after
    (if passthrough = [] then none else some passthrough, true)

/-! ## Protocol responses and the transcription client — `parakeet_claude/client.py`

`transcribe` opens a socket, sends one framed request, reads one framed
response and dispatches on its `"type"` field; the `finally` closes the
socket on every path.  Exceptions raised by the call are modelled by
`PyExc`; the per-call network outcome by `ConnOutcome`. -/

/-- A decoded response object, keyed by its `"type"` discriminator.
`other` stands for any discriminator besides `result` / `error` / `pong`. -/
inductive Resp where
  | pong (model : String)
  | result (text : String)
  | error (message : String)
  | other (tag : String)
deriving DecidableEq

/-- Python exceptions that the client code distinguishes. -/
inductive PyExc where
  /-- `OSError` family: `ConnectionRefusedError`, `FileNotFoundError`,
  `socket.timeout` — connect/send failed. -/
  | osError
  /-- `ConnectionError("socket closed mid-read")` raised by `_recv_exact`
  (also an `OSError` subclass). -/
  | connClosed
  /-- `RuntimeError(msg)`. -/
  | runtimeError (msg : String)
deriving DecidableEq

/-- Outcome of one client call's network interaction. -/
inductive ConnOutcome where
  /-- `sock.connect` (or the send) raised an `OSError`. -/
  | connectFail
  /-- the peer closed before a full frame arrived; `recv_message` raised
  `ConnectionError`. -/
  | shortRead
  /-- a full response frame was read and decoded. -/
  | reply (r : Resp)
deriving DecidableEq

/-- The client-side socket resource. -/
structure SockState where
  isOpen : Bool
deriving DecidableEq

/-- Model of a Python `try:` body `finally:` cleanup: the cleanup runs on the
state whether the body returned or raised. -/
def pyTryFinally {σ β : Type} (body : σ × β) (fin : σ → σ) : σ × β :=
  (fin body.1, body.2)

/-- `sock.close()`. -/
def sockClose (s : SockState) : SockState := { s with isOpen := false }

/-- Model of Python's `repr` of the response dict, used in the client's
`f"Unexpected response: ..."` message (approximated: `repr` quoting with `'`). -/
def reprOfResp : Resp → String
  | .pong m => "\x7b'type': 'pong', 'model': '" ++ m ++ "'\x7d"
  | .result t => "\x7b'type': 'result', 'text': '" ++ t ++ "'\x7d"
  | .error m => "\x7b'type': 'error', 'message': '" ++ m ++ "'\x7d"
  | .other tag => "\x7b'type': '" ++ tag ++ "'\x7d"

/-- The `try:` body of `ParakeetClient.transcribe` (`client.py` lines 18-27):
dispatch on the response discriminator; `result` returns the text, `error`
raises `RuntimeError(message)`, anything else raises
`RuntimeError(f"Unexpected response: ...")`; network failures raise. -/
def transcribeTry (env : ConnOutcome) (s : SockState) :
    SockState × Except PyExc String :=
  match env with
  | .connectFail => (s, .error .osError)
  | .shortRead => (s, .error .connClosed)
  | .reply (.result t) => (s, .ok t)
  | .reply (.error m) => (s, .error (.runtimeError m))
  | .reply r => (s, .error (.runtimeError ("Unexpected response: " ++ reprOfResp r)))

/-- Model of `ParakeetClient.transcribe` (`client.py` lines 13-29): a fresh
open socket, the `try:` body, and the `finally: sock.close()`. -/
def transcribe (env : ConnOutcome) : SockState × Except PyExc String :=
  pyTryFinally (transcribeTry env { isOpen := true }) sockClose

/-- Per-call environment of `ParakeetClient.ping`: the `"type"` field of the
decoded reply is read with `response.get("type")`, hence an `Option`. -/
inductive PingEnv where
  | connectFail
  | shortRead
  | reply (typeField : Option String)
deriving DecidableEq

/-- Model of `ParakeetClient.ping` (`client.py` lines 31-43): returns
`response.get("type") == "pong"`; every `OSError`-family failure (refused
connection, missing socket file, timeout, peer closing mid-frame) is caught
by the `except` clause and yields `False`. -/
def ping (env : PingEnv) : Bool :=
  match env with
  | .connectFail => false
  | .shortRead => false
  | .reply t => t == some "pong"

/-! ## Server request dispatch — `parakeet_server/server.py` -/

/-- Outcome of the server's in-process model call `model.transcribe([path])`. -/
inductive ASROutcome where
  | ok (text : String)
  | raises (msg : String)
deriving DecidableEq

/-- Model of the `transcribe` arm of `_handle_connection` (`server.py` lines
59-69): a path that is not a regular file yields
`{"type": "error", "message": f"File not found: {audio_path}"}`; otherwise the
model's answer is returned as `result`, and an in-model exception as `error`
with its message. -/
def handleTranscribe (isfile : String → Bool) (asr : ASROutcome) (path : String) :
    Resp :=
  if ¬ isfile path then .error ("File not found: " ++ path)
  else match asr with
    | .ok t => .result t
    | .raises m => .error m

/-! ## The background recording flow — `parakeet_claude/recorder.py`

`VoiceSession._record_flow` (lines 77-145) is one cycle's background work:
beep, launch `rec`, wait, beep, check the produced file, transcribe, inject,
with a `finally:` that resets `self.recording` and unlinks the temporary
file.  The external world of one run is a `FlowEnv`. -/

/-- Outcome of the client call made inside `_record_flow`
(`self.client.transcribe(...)`). -/
inductive TransOutcome where
  | ok (text : String)
  /-- `ConnectionRefusedError` / `FileNotFoundError` / `OSError`. -/
  | osErr
  /-- any other exception, displayed via its message. -/
  | exc (msg : String)
deriving DecidableEq

/-- External-world outcomes of one run of `_record_flow`. -/
structure FlowEnv where
  /-- `subprocess.Popen(["rec", ...])` succeeds (the `rec` binary exists).
  When it fails, `FileNotFoundError` is raised inside the `try:` body. -/
  recLaunches : Bool
  /-- result of `os.path.isfile(self._audio_path)` after the recorder exits. -/
  fileFound : Bool
  /-- result of `os.path.getsize(self._audio_path)`. -/
  fileSize : Nat
  /-- outcome of `self.client.transcribe(self._audio_path)`. -/
  service : TransOutcome
deriving DecidableEq

/-- Observable result of one run of `_record_flow`.  During the body,
`fileNow` tracks whether the cycle's temporary file currently exists
(`tempfile.mkstemp` in `_start` created it). -/
structure FlowResult where
  /-- the `show_status` messages, in order. -/
  statuses : List String
  /-- frequencies passed to `_play_beep`, in order. -/
  beeps : List Nat
  /-- whether `self.client.transcribe` was called. -/
  transcribeCalled : Bool
  /-- the text written to the PTY master fd under the lock, if any. -/
  injected : Option String
  /-- an exception propagated out of `_record_flow` (after `finally:` ran). -/
  raised : Bool
  /-- final value of `self.recording`. -/
  recording : Bool
  /-- whether the temporary audio file exists. -/
  fileNow : Bool
deriving DecidableEq

/-- The `try:` body of `_record_flow` (`recorder.py` lines 78-137).  The
only modelled exception source is `Popen` raising when the `rec` binary is
missing; there is no `except` clause in the source, so that exception is not
caught here — only the `finally:` (modelled by `flowCleanup`) runs. -/
def recordFlowBody (env : FlowEnv) : FlowResult :=
  let base : FlowResult :=
    { statuses := ["Recording... (F5 to stop)"], beeps := [880],
      transcribeCalled := false, injected := none, raised := false,
      recording := true, fileNow := true }
  if ¬ env.recLaunches then
    { base with raised := true }
  else
    let b := { base with beeps := base.beeps ++ [440] }
    if ¬ env.fileFound then
      { b with statuses := b.statuses ++ ["Recording failed"], fileNow := false }
    else if env.fileSize < 1000 then
      { b with statuses := b.statuses ++ ["No speech detected"] }
    else
      let c := { b with statuses := b.statuses ++ ["Transcribing..."],
                        transcribeCalled := true }
      match env.service with
      | .osErr =>
        { c with statuses := c.statuses ++ ["Server not running! Start: parakeet-server"] }
      | .exc m =>
        { c with statuses := c.statuses ++ ["Transcription error: " ++ m] }
      | .ok t =>
        let t2 := t.trim
        if t2 = "" then
          { c with statuses := c.statuses ++ ["No speech detected"] }
        else
          { c with injected := some t2 }

/-- The `finally:` of `_record_flow` (`recorder.py` lines 139-145): reset
`self.recording`, and if the temporary file still exists, unlink it. -/
def flowCleanup (r : FlowResult) : FlowResult :=
  { r with recording := false,
           fileNow := if r.fileNow then false else r.fileNow }

/-- One full run of `_record_flow`: body, then the `finally:` cleanup, on
every path including the uncaught-exception one. -/
def recordFlow (env : FlowEnv) : FlowResult :=
  flowCleanup (recordFlowBody env)

/-! ## Best-effort subprocess helpers -/

/-- Outcome of the `subprocess.run(["play", ...])` call inside `_play_beep`. -/
inductive BeepOutcome where
  | completed
  | timeoutExpired
  | fileNotFound
deriving DecidableEq

/-- The raw `subprocess.run` call of `_play_beep`, before exception handling. -/
def runBeepProcess : BeepOutcome → Except PyExc Unit
  | .completed => .ok ()
  | .timeoutExpired => .error .osError
  | .fileNotFound => .error .osError

/-- Model of `_play_beep` (`recorder.py` lines 22-35): the
`except (subprocess.TimeoutExpired, FileNotFoundError): pass` clause swallows
exactly the outcomes enumerated by `BeepOutcome`. -/
def playBeep (o : BeepOutcome) : Except PyExc Unit :=
  match runBeepProcess o with
  | .ok u => .ok u
  | .error _ =>
    match o with
    | .completed => .ok ()
    | .timeoutExpired => .ok ()
    | .fileNotFound => .ok ()

/-- Outcome of the `subprocess.run(["notify-send", ...])` call inside the
desktop notifier `_notify` (`parakeet_kbd/daemon.py` lines 191-202). -/
inductive NotifyOutcome where
  | completed
  | timeoutExpired
  | fileNotFound
deriving DecidableEq

/-- Model of `_notify` (`parakeet_kbd/daemon.py` lines 191-202): same
best-effort pattern as `_play_beep` — `TimeoutExpired` and
`FileNotFoundError` are swallowed. -/
def notifyDesktop (o : NotifyOutcome) : Except PyExc Unit :=
  match o with
  | .completed => .ok ()
  | .timeoutExpired => .ok ()
  | .fileNotFound => .ok ()

/-! ## The toggle state machine — `VoiceSession` (`recorder.py` lines 38-91)

The controller's mutable state is `self.recording : bool` and
`self._rec_proc` (`None`, or a `Popen` handle whose `poll()` tells whether
the recorder subprocess is still running).  The background thread started by
`_start` performs the `Popen`, waits for the recorder to exit, transcribes
and finishes; its atomic steps interleave with foreground `toggle()` calls.
The fields `liveProcs` / `spawned` / `cycles` are ghost instrumentation:
they count, respectively, the recorder subprocesses currently running, all
`Popen(["rec", ...])` calls ever made, and all Idle-state `toggle()` calls. -/

/-- Position of the background thread inside `_record_flow`. -/
inductive BgPhase where
  /-- no background thread is running a cycle. -/
  | idle
  /-- `_start` spawned the thread; it has not reached the `Popen` yet. -/
  | launched
  /-- `Popen` done; the thread blocks in `self._rec_proc.wait()`. -/
  | recRunning
  /-- `wait()` returned; file check / transcription / injection in progress. -/
  | transcribing
deriving DecidableEq

/-- Controller state plus ghost counters. -/
structure VS where
  /-- `self.recording`. -/
  recording : Bool
  /-- `self._rec_proc`: `none` = `None`; `some true` = handle with
  `poll() is None` (running); `some false` = handle of an exited process. -/
  proc : Option Bool
  bg : BgPhase
  /-- ghost: recorder subprocesses currently alive. -/
  liveProcs : Nat
  /-- ghost: total `Popen` calls. -/
  spawned : Nat
  /-- ghost: total Idle-state `toggle()` calls (cycles started). -/
  cycles : Nat
deriving DecidableEq

/-- `VoiceSession.__init__`: not recording, no recorder handle. -/
def vsInit : VS :=
  { recording := false, proc := none, bg := .idle,
    liveProcs := 0, spawned := 0, cycles := 0 }

/-- Atomic events of one session: the foreground `toggle()` and the steps of
the background thread. -/
inductive Ev where
  /-- `toggle()` (`recorder.py` lines 54-59). -/
  | toggle
  /-- the thread executes `subprocess.Popen(["rec", ...])` successfully. -/
  | popen
  /-- the `Popen` raises (missing binary); the `finally:` closes the cycle. -/
  | popenFail
  /-- the recorder exits on its own (trailing-silence auto-stop). -/
  | recExit
  /-- `self._rec_proc.wait()` returns (the process has exited). -/
  | waitRet
  /-- the remainder of `_record_flow` and its `finally:` complete:
  `self.recording = False`, temporary file removed. -/
  | finish
deriving DecidableEq

/-- Small-step semantics.  `none` means the event is not currently possible
(background steps are gated by the thread's position).  `toggle` is always
possible: `_start` for `recording == False`, else `_stop`, which terminates
the recorder only if a handle exists and `poll() is None` — the
graceful-`terminate` / bounded-`wait` / `kill` sequence always leaves the
process dead, modelled as `proc := some false`. -/
def vsStep (s : VS) : Ev → Option VS
  | .toggle =>
    if s.recording then
      if s.proc = some true then
        some { s with proc := some false, liveProcs := s.liveProcs - 1 }
      else
        some s
    else
      some { s with recording := true, bg := .launched, cycles := s.cycles + 1 }
  | .popen =>
    if s.bg = .launched then
      some { s with bg := .recRunning, proc := some true,
                    liveProcs := s.liveProcs + 1, spawned := s.spawned + 1 }
    else none
  | .popenFail =>
    if s.bg = .launched then
      some { s with bg := .idle, recording := false }
    else none
  | .recExit =>
    if s.bg = .recRunning ∧ s.proc = some true then
      some { s with proc := some false, liveProcs := s.liveProcs - 1 }
    else none
  | .waitRet =>
    if s.bg = .recRunning ∧ s.proc = some false then
      some { s with bg := .transcribing }
    else none
  | .finish =>
    if s.bg = .transcribing then
      some { s with bg := .idle, recording := false }
    else none

/-- Run a list of events from a state, failing if any event is impossible. -/
def vsRunFrom (s : VS) : List Ev → Option VS
  | [] => some s
  | e :: es =>
    match vsStep s e with
    | none => none
    | some s2 => vsRunFrom s2 es

/-- Run a list of events from the initial state. -/
def vsRun (es : List Ev) : Option VS := vsRunFrom vsInit es

/-- Inductive invariant of the session machine: a running recorder handle
exists only while the thread blocks in `wait()`; the ghost live count is `1`
exactly when the handle is running; no more recorders are ever spawned than
cycles were started, strictly fewer while a spawn is still pending; and
`recording == False` means no background thread is active. -/
def VSInv (s : VS) : Prop :=
  (s.proc = some true → s.bg = .recRunning) ∧
  s.liveProcs = (if s.proc = some true then 1 else 0) ∧
  s.spawned ≤ s.cycles ∧
  (s.bg = .launched → s.spawned < s.cycles) ∧
  (s.recording = false → s.bg = .idle)

/-! ## Wire protocol — `parakeet_server/protocol.py`

`send_message` serializes the object with `json.dumps` (whose default
`ensure_ascii=True` makes the payload pure ASCII, so the UTF-8 encoding is
the identity on it), and prepends `struct.pack(">I", len(data))`.
`recv_message` reads a 4-byte big-endian length, then exactly that many
payload bytes, and decodes with `json.loads`.  Bytes are `List Nat`. -/

/-- The protocol message envelope (`protocol.py` docstring): a `type`
discriminator plus type-specific string fields, exactly the five shapes the
client and server construct. -/
inductive Msg where
  | ping
  | pong (model : String)
  | transcribe (audioPath : String)
  | result (text : String)
  | error (message : String)
deriving DecidableEq

/-- Unicode code points of a Python `str`. -/
def strCodes (s : String) : List Nat := s.data.map Char.toNat

/-- Rebuild a `str` from code points (total; only scalar values occur in
parser output on well-formed input). -/
def stringOfCodes (cs : List Nat) : String := String.mk (cs.map Char.ofNat)

/-- Lowercase hex digit of `d < 16`, as an ASCII code (`"%04x"` formatting). -/
def hexDigit (d : Nat) : Nat := if d < 10 then 48 + d else 87 + d

/-- The four ASCII codes of `"%04x" % n` for `n < 0x10000`. -/
def hex4 (n : Nat) : List Nat :=
  [hexDigit (n / 4096 % 16), hexDigit (n / 256 % 16),
   hexDigit (n / 16 % 16), hexDigit (n % 16)]

/-- Model of `json.dumps`'s per-character string escaping with
`ensure_ascii=True`: `"` and `\` and the short control escapes use two-byte
forms, printable ASCII passes through, every other BMP code point becomes
`\uXXXX`, and astral code points become a UTF-16 surrogate pair
`\uXXXX\uXXXX`. -/
def escapeCode (n : Nat) : List Nat :=
  if n = 34 then [92, 34]
  else if n = 92 then [92, 92]
  else if n = 8 then [92, 98]
  else if n = 9 then [92, 116]
  else if n = 10 then [92, 110]
  else if n = 12 then [92, 102]
  else if n = 13 then [92, 114]
  else if 32 ≤ n ∧ n ≤ 126 then [n]
  else if n < 65536 then 92 :: 117 :: hex4 n
  else (92 :: 117 :: hex4 (55296 + (n - 65536) / 1024)) ++
       (92 :: 117 :: hex4 (56320 + (n - 65536) % 1024))

/-- Escape a whole string's code points. -/
def escapeString (s : List Nat) : List Nat := s.flatMap escapeCode

/-- A JSON string literal: quote, escaped body, quote. -/
def quoteString (s : List Nat) : List Nat := 34 :: (escapeString s ++ [34])

/-- One `"key": "value"` member as `json.dumps` emits it (separator `": "`). -/
def jsonMember (k : String) (v : List Nat) : List Nat :=
  quoteString (strCodes k) ++ [58, 32] ++ quoteString v

/-- Model of `json.dumps(obj).encode("utf-8")` for the five message shapes,
with the default separators (`", "`, `": "`) and insertion-ordered keys. -/
def jsonDumps : Msg → List Nat
  | .ping => [123] ++ jsonMember "type" (strCodes "ping") ++ [125]
  | .pong m =>
    [123] ++ jsonMember "type" (strCodes "pong") ++ [44, 32] ++
      jsonMember "model" (strCodes m) ++ [125]
  | .transcribe p =>
    [123] ++ jsonMember "type" (strCodes "transcribe") ++ [44, 32] ++
      jsonMember "audio_path" (strCodes p) ++ [125]
  | .result t =>
    [123] ++ jsonMember "type" (strCodes "result") ++ [44, 32] ++
      jsonMember "text" (strCodes t) ++ [125]
  | .error m =>
    [123] ++ jsonMember "type" (strCodes "error") ++ [44, 32] ++
      jsonMember "message" (strCodes m) ++ [125]

/-- `struct.pack(">I", n)`: 4 bytes, big-endian (defined for `n < 2^32`;
`struct` raises beyond that, hence the hypotheses on the round-trip). -/
def bePack (n : Nat) : List Nat :=
  [n / 16777216 % 256, n / 65536 % 256, n / 256 % 256, n % 256]

/-- `struct.unpack(">I", b)[0]` on a 4-byte buffer. -/
def beUnpack (b : List Nat) : Nat := b.foldl (fun a x => a * 256 + x) 0

/-- Model of `send_message` (`protocol.py` lines 17-20): the frame put on
the wire. -/
def sendMessage (m : Msg) : List Nat :=
  bePack (jsonDumps m).length ++ jsonDumps m

/-- Model of `_recv_exact` (`protocol.py` lines 33-41) reading from a
stream whose remaining bytes before the peer's close are `s`: the loop
accumulates non-empty `recv` chunks until `n` bytes are collected; a
zero-length `recv` (peer closed) raises `ConnectionError("socket closed
mid-read")`.  The loop's result does not depend on how the transport
fragments the bytes: it is the first `n` bytes when the stream has that
many, and the error otherwise. -/
def recvExact (s : List Nat) (n : Nat) : Except String (List Nat × List Nat) :=
  if n ≤ s.length then .ok (s.take n, s.drop n)
  else .error "socket closed mid-read"

/-- `parseHexDigit` models `json`'s reading of one hex digit of a `\uXXXX`
escape (both cases accepted). -/
def parseHexDigit (b : Nat) : Option Nat :=
  if 48 ≤ b ∧ b ≤ 57 then some (b - 48)
  else if 97 ≤ b ∧ b ≤ 102 then some (b - 87)
  else if 65 ≤ b ∧ b ≤ 70 then some (b - 55)
  else none

/-- Four hex digits into a number below `0x10000`. -/
def parse4Hex : List Nat → Option (Nat × List Nat)
  | a :: b :: c :: d :: rest => do
    let x ← parseHexDigit a
    let y ← parseHexDigit b
    let z ← parseHexDigit c
    let w ← parseHexDigit d
    some (x * 4096 + y * 256 + z * 16 + w, rest)
  | _ => none

/-- One backslash escape, the backslash already consumed — the escapes
`json.loads` accepts, with `\uXXXX` and surrogate-pair combination as in
CPython's `scanstring` (lone surrogates are outside this model, which is
restricted to Unicode scalar values). -/
def parseEscape (s : List Nat) : Option (Nat × List Nat) :=
  match s with
  | [] => none
  | e :: r =>
    if e = 34 then some (34, r)
    else if e = 92 then some (92, r)
    else if e = 47 then some (47, r)
    else if e = 98 then some (8, r)
    else if e = 102 then some (12, r)
    else if e = 110 then some (10, r)
    else if e = 114 then some (13, r)
    else if e = 116 then some (9, r)
    else if e = 117 then
      match parse4Hex r with
      | none => none
      | some (n, r2) =>
        if 55296 ≤ n ∧ n ≤ 56319 then
          match r2 with
          | a :: b :: r3 =>
            if a = 92 ∧ b = 117 then
              match parse4Hex r3 with
              | none => none
              | some (m, r4) =>
                if 56320 ≤ m ∧ m ≤ 57343 then
                  some (65536 + (n - 55296) * 1024 + (m - 56320), r4)
                else none
            else none
          | _ => none
        else if 56320 ≤ n ∧ n ≤ 57343 then none
        else some (n, r2)
    else none

/-- Body of a JSON string literal after the opening quote: code points until
the closing quote; unescaped control characters are rejected (`strict`
mode).  `fuel` bounds the recursion; each step consumes at least one byte,
so `fuel :=` length of the input suffices. -/
def parseStrBody : Nat → List Nat → Option (List Nat × List Nat)
  | 0, _ => none
  | _fuel + 1, [] => none
  | fuel + 1, b :: rest =>
    if b = 34 then some ([], rest)
    else if b = 92 then
      match parseEscape rest with
      | none => none
      | some (c, r2) =>
        match parseStrBody fuel r2 with
        | none => none
        | some (cs, r3) => some (c :: cs, r3)
    else if b < 32 then none
    else
      match parseStrBody fuel rest with
      | none => none
      | some (cs, r2) => some (b :: cs, r2)

/-- A JSON string literal: opening quote then body. -/
def parseJString (s : List Nat) : Option (List Nat × List Nat) :=
  match s with
  | [] => none
  | b :: rest => if b = 34 then parseStrBody rest.length rest else none

/-- Require a literal byte sequence at the front of the input. -/
def expectBytes : List Nat → List Nat → Option (List Nat)
  | [], s => some s
  | p :: ps, b :: bs => if b = p then expectBytes ps bs else none
  | _ :: _, [] => none

/-- Read one `", \"key\": <string>"` member. -/
def parseNamedField (keyName : String) (s : List Nat) :
    Option (List Nat × List Nat) := do
  let s1 ← expectBytes [44, 32] s
  let (k, s2) ← parseJString s1
  if k = strCodes keyName then
    let s3 ← expectBytes [58, 32] s2
    parseJString s3
  else none

/-- Model of `json.loads` restricted to the grammar `json.dumps` emits for
the five protocol messages (fixed key order and separators; `json.loads`
agrees with this model on every such payload).  Trailing bytes after the
object make the decode fail, as `json.loads` raises on extra data. -/
def jsonLoadsMsg (s : List Nat) : Option Msg := do
  let s1 ← expectBytes [123] s
  let (k, s2) ← parseJString s1
  if k = strCodes "type" then
    let s3 ← expectBytes [58, 32] s2
    let (tag, s4) ← parseJString s3
    if tag = strCodes "ping" then
      let s5 ← expectBytes [125] s4
      if s5 = [] then some Msg.ping else none
    else if tag = strCodes "pong" then
      let (v, s5) ← parseNamedField "model" s4
      let s6 ← expectBytes [125] s5
      if s6 = [] then some (Msg.pong (stringOfCodes v)) else none
    else if tag = strCodes "transcribe" then
      let (v, s5) ← parseNamedField "audio_path" s4
      let s6 ← expectBytes [125] s5
      if s6 = [] then some (Msg.transcribe (stringOfCodes v)) else none
    else if tag = strCodes "result" then
      let (v, s5) ← parseNamedField "text" s4
      let s6 ← expectBytes [125] s5
      if s6 = [] then some (Msg.result (stringOfCodes v)) else none
    else if tag = strCodes "error" then
      let (v, s5) ← parseNamedField "message" s4
      let s6 ← expectBytes [125] s5
      if s6 = [] then some (Msg.error (stringOfCodes v)) else none
    else none
  else none

/-- Model of `recv_message` (`protocol.py` lines 23-30): read the 4-byte
length prefix, read exactly that many payload bytes, decode.  (The
`if not raw_len` guard in the source is unreachable: `_recv_exact` either
returns all 4 bytes or raises.)  A `json.loads` failure is a raised
`ValueError`, modelled as an error value distinct from the transport one. -/
def recvMessage (s : List Nat) : Except String Msg :=
  match recvExact s 4 with
  | .error e => .error e
  | .ok (rawLen, rest) =>
    match recvExact rest (beUnpack rawLen) with
    | .error e => .error e
    | .ok (data, _) =>
      match jsonLoadsMsg data with
      | some m => .ok m
      | none => .error "json decode failed"

/-! ## Helper lemmas: `bytes.find` against occurrence of a substring -/

theorem findSub_eq_none (t : List Nat) :
    ∀ d, findSub t d = none → ∀ i, ¬ OccursAt t d i := by
  intro d
  induction d with
  | nil =>
    intro h i hocc
    simp only [findSub] at h
    split at h
    · cases h
    · rename_i hne
      exact hne (by simpa [OccursAt] using hocc)
  | cons b rest ih =>
    intro h i hocc
    simp only [findSub] at h
    split at h
    · cases h
    · rename_i hne
      have hrest : findSub t rest = none := by
        cases hf : findSub t rest with
        | none => rfl
        | some k => rw [hf] at h; cases h
      cases i with
      | zero => exact hne (by simpa [OccursAt] using hocc)
      | succ j => exact ih hrest j (by simpa [OccursAt] using hocc)

theorem findSub_eq_some (t : List Nat) :
    ∀ d i, findSub t d = some i →
      OccursAt t d i ∧ ∀ j, j < i → ¬ OccursAt t d j := by
  intro d
  induction d with
  | nil =>
    intro i h
    simp only [findSub] at h
    split at h
    · rename_i htake
      injection h with h0
      subst h0
      exact ⟨by simpa [OccursAt] using htake, by omega⟩
    · cases h
  | cons b rest ih =>
    intro i h
    simp only [findSub] at h
    split at h
    · rename_i htake
      injection h with h0
      subst h0
      exact ⟨by simpa [OccursAt] using htake, by omega⟩
    · rename_i hne
      cases hf : findSub t rest with
      | none => rw [hf] at h; cases h
      | some k =>
        rw [hf] at h
        simp only [Option.map_some', Option.some.injEq] at h
        obtain ⟨hocc, hmin⟩ := ih k hf
        subst h
        refine ⟨by simpa [OccursAt] using hocc, ?_⟩
        intro j hj hjocc
        cases j with
        | zero => exact hne (by simpa [OccursAt] using hjocc)
        | succ j0 => exact hmin j0 (by omega) (by simpa [OccursAt] using hjocc)

theorem findSub_complete (t : List Nat) :
    ∀ d i, OccursAt t d i → (∀ j, j < i → ¬ OccursAt t d j) →
      findSub t d = some i := by
  intro d
  induction d with
  | nil =>
    intro i hocc hmin
    have ht : ([] : List Nat).take t.length = t := by
      simpa [OccursAt] using hocc
    have hi : i = 0 := by
      by_contra h0
      exact hmin 0 (by omega) (by simpa [OccursAt] using ht)
    subst hi
    simp [findSub, ht]
  | cons b rest ih =>
    intro i hocc hmin
    by_cases htake : (b :: rest).take t.length = t
    · have hi : i = 0 := by
        by_contra h0
        exact hmin 0 (by omega) (by simpa [OccursAt] using htake)
      subst hi
      simp [findSub, htake]
    · have hi : i ≠ 0 := by
        intro h0
        subst h0
        exact htake (by simpa [OccursAt] using hocc)
      obtain ⟨i0, rfl⟩ : ∃ i0, i = i0 + 1 := ⟨i - 1, by omega⟩
      have hrest : findSub t rest = some i0 :=
        ih i0 (by simpa [OccursAt] using hocc)
          (fun j hj hjo => hmin (j + 1) (by omega) (by simpa [OccursAt] using hjo))
      simp [findSub, htake, hrest]

/-! ## Claim theorems (part 1) -/

/-- Claim C3: if the trigger sequence does not occur in the chunk, `feed`
returns the chunk unchanged with `triggered = false`; if it occurs, `feed`
returns `triggered = true` together with the bytes before the first
occurrence concatenated with the bytes after it, or `none` when that
concatenation is empty. -/
theorem feed_trigger_spec (t d : List Nat) :
    ((∀ i, ¬ OccursAt t d i) → feed t d = (some d, false)) ∧
    (∀ i, OccursAt t d i → (∀ j, j < i → ¬ OccursAt t d j) →
      feed t d =
        (if d.take i ++ d.drop (i + t.length) = ([] : List Nat) then none
         else some (d.take i ++ d.drop (i + t.length)), true)) := by
  constructor
  · intro hno
    cases hf : findSub t d with
    | none => simp [feed, hf]
    | some i => exact absurd (findSub_eq_some t d i hf).1 (hno i)
  · intro i hocc hmin
    have hf := findSub_complete t d i hocc hmin
    simp [feed, hf]

/-- Witness for C3: the F5 escape sequence `\x1b[15~` in the middle of a
chunk fires and is stripped; feeding it alone yields no passthrough. -/
theorem feed_trigger_spec_witness :
    feed [27, 91, 49, 53, 126] [104, 27, 91, 49, 53, 126, 105] =
      (if ([104, 27, 91, 49, 53, 126, 105] : List Nat).take 1 ++
            ([104, 27, 91, 49, 53, 126, 105] : List Nat).drop (1 + 5) = ([] : List Nat)
       then none
       else some (([104, 27, 91, 49, 53, 126, 105] : List Nat).take 1 ++
            ([104, 27, 91, 49, 53, 126, 105] : List Nat).drop (1 + 5)), true) :=
  (feed_trigger_spec [27, 91, 49, 53, 126] [104, 27, 91, 49, 53, 126, 105]).2
    1 (by decide) (by decide)

/-- Claim C2: on every exit branch of `_record_flow` — successful injection,
empty transcript, file missing, file below threshold, transport failure,
domain error, or the uncaught launch exception — the `finally:` has run: the
cycle's temporary audio file no longer exists and `self.recording` is back
to `False` (Idle). -/
theorem recordFlow_cleanup_on_every_path (env : FlowEnv) :
    (recordFlow env).recording = false ∧ (recordFlow env).fileNow = false := by
  unfold recordFlow flowCleanup
  refine ⟨rfl, ?_⟩
  cases h : (recordFlowBody env).fileNow <;> simp [h]

/-- Claim C5: `transcribe` returns the `text` field of a `result` response,
raises `RuntimeError` carrying exactly the service's message on an `error`
response (in particular the exact `"File not found: <path>"` the server
sends for a path that is not a file), and raises the
`"Unexpected response"` `RuntimeError` on any other discriminator. -/
theorem transcribe_response_dispatch :
    (∀ t, (transcribe (.reply (.result t))).2 = .ok t) ∧
    (∀ m, (transcribe (.reply (.error m))).2 = .error (.runtimeError m)) ∧
    (∀ tag, (transcribe (.reply (.other tag))).2 =
      .error (.runtimeError ("Unexpected response: " ++ reprOfResp (.other tag)))) ∧
    (∀ m, (transcribe (.reply (.pong m))).2 =
      .error (.runtimeError ("Unexpected response: " ++ reprOfResp (.pong m)))) ∧
    (∀ (isfile : String → Bool) (asr : ASROutcome) (path : String),
      isfile path = false →
      (transcribe (.reply (handleTranscribe isfile asr path))).2 =
        .error (.runtimeError ("File not found: " ++ path))) := by
  refine ⟨fun t => rfl, fun m => rfl, fun tag => rfl, fun m => rfl, ?_⟩
  intro isfile asr path h
  simp [handleTranscribe, h, transcribe, pyTryFinally, transcribeTry]

/-- Witness for C5: a server that finds no file at `"/tmp/absent.wav"`
answers with the error message the client re-raises verbatim. -/
theorem transcribe_response_dispatch_witness :
    (transcribe (.reply (handleTranscribe (fun _ => false) (.ok "")
        "/tmp/absent.wav"))).2 =
      .error (.runtimeError ("File not found: " ++ "/tmp/absent.wav")) :=
  transcribe_response_dispatch.2.2.2.2 (fun _ => false) (.ok "") "/tmp/absent.wav" rfl

/-- Claim C6: `ping()` returns `True` exactly when the response
discriminator is `pong`; a connection failure or any other discriminator
yields `False` (the `except` clause catches the whole `OSError` family, so
nothing is raised). -/
theorem ping_true_iff_pong (env : PingEnv) :
    ping env = true ↔ env = .reply (some "pong") := by
  cases env with
  | connectFail => simp [ping]
  | shortRead => simp [ping]
  | reply t => simp [ping]

/-- Claim C7: when the peer closes the connection before the 4-byte length
prefix, or before the declared number of payload bytes, has fully arrived,
`recv_message` raises the `ConnectionError` transport error instead of
returning a partial message. -/
theorem recvMessage_short_read (s : List Nat)
    (h : s.length < 4 ∨ (4 ≤ s.length ∧ s.length < 4 + beUnpack (s.take 4))) :
    recvMessage s = .error "socket closed mid-read" := by
  rcases h with h | ⟨h4, hlen⟩
  · have hlt : ¬ 4 ≤ s.length := by omega
    simp [recvMessage, recvExact, hlt]
  · have hrest : ¬ beUnpack (s.take 4) ≤ s.length - 4 := by omega
    simp [recvMessage, recvExact, h4, hrest]

/-- Witness for C7: a frame declaring 5 payload bytes of which none arrive. -/
theorem recvMessage_short_read_witness :
    recvMessage [0, 0, 0, 5] = .error "socket closed mid-read" :=
  recvMessage_short_read [0, 0, 0, 5] (Or.inr (by decide))

/-- Claim C10: every call to `transcribe` ends with its socket closed — on
the result path and on every raising path (transport, domain, protocol) —
because the close is in a `finally:`. -/
theorem transcribe_closes_socket (env : ConnOutcome) :
    (transcribe env).1.isOpen = false := rfl

/-- Counterexample to C8 as stated: when the audio file is missing after
the recorder exits, the controller does not show a "no speech" status — it
shows `"Recording failed"`, and `"No speech detected"` never appears. -/
theorem recordFlow_missing_file_status_counterexample :
    (recordFlow { recLaunches := true, fileFound := false, fileSize := 0, service := .ok "" }).statuses =
      ["Recording... (F5 to stop)", "Recording failed"] ∧
    "No speech detected" ∉ (recordFlow { recLaunches := true, fileFound := false, fileSize := 0, service := .ok "" }).statuses := by
  constructor
  · rfl
  · decide

/-- Claim C8 (amended): if after the recorder exits the audio file is
missing, the controller shows `"Recording failed"`; if the file exists but
its size is below the 1000-byte minimum-plausible-speech threshold, it shows
`"No speech detected"`; in both cases it performs cleanup, ends the cycle in
Idle, and neither calls `transcribe` nor writes to the master fd. -/
theorem recordFlow_capture_errors (env : FlowEnv)
    (hlaunch : env.recLaunches = true) :
    (env.fileFound = false →
      recordFlow env =
        { statuses := ["Recording... (F5 to stop)", "Recording failed"],
          beeps := [880, 440], transcribeCalled := false, injected := none,
          raised := false, recording := false, fileNow := false }) ∧
    (env.fileFound = true → env.fileSize < 1000 →
      recordFlow env =
        { statuses := ["Recording... (F5 to stop)", "No speech detected"],
          beeps := [880, 440], transcribeCalled := false, injected := none,
          raised := false, recording := false, fileNow := false }) := by
  constructor
  · intro hfile
    simp [recordFlow, recordFlowBody, flowCleanup, hlaunch, hfile]
  · intro hfile hsize
    simp [recordFlow, recordFlowBody, flowCleanup, hlaunch, hfile, hsize]

/-- Witness for the amended C8: a concrete run with the file missing. -/
theorem recordFlow_capture_errors_witness :
    recordFlow { recLaunches := true, fileFound := false, fileSize := 0, service := .osErr } =
      { statuses := ["Recording... (F5 to stop)", "Recording failed"],
        beeps := [880, 440], transcribeCalled := false, injected := none,
        raised := false, recording := false, fileNow := false } :=
  (recordFlow_capture_errors
    { recLaunches := true, fileFound := false, fileSize := 0, service := .osErr } rfl).1 rfl

/-- Counterexample to C9 as stated: when the `rec` binary is missing the
`Popen` exception is not swallowed — it propagates out of `_record_flow`
(there is no `except` clause, only the `finally:`). -/
theorem recordFlow_launch_failure_raises_counterexample :
    (recordFlow { recLaunches := false, fileFound := true, fileSize := 0, service := .ok "" }).raised = true := rfl

/-- Claim C9 (amended): tone-player failures (`_play_beep`) and notifier
failures (`_notify`) are swallowed inside the affected call; but a failure
to launch the recorder propagates an exception out of the background
capture flow — the `finally:` still resets the state to Idle and removes
the temporary file, and nothing is transcribed or injected. -/
theorem bestEffort_resources_and_launch_failure :
    (∀ o : BeepOutcome, playBeep o = .ok ()) ∧
    (∀ o : NotifyOutcome, notifyDesktop o = .ok ()) ∧
    (∀ env : FlowEnv, env.recLaunches = false →
      (recordFlow env).raised = true ∧
      (recordFlow env).recording = false ∧
      (recordFlow env).fileNow = false ∧
      (recordFlow env).transcribeCalled = false ∧
      (recordFlow env).injected = none) := by
  refine ⟨fun o => by cases o <;> rfl, fun o => by cases o <;> rfl, ?_⟩
  intro env h
  simp [recordFlow, recordFlowBody, flowCleanup, h]

/-- Witness for the amended C9: a concrete launch-failure run. -/
theorem bestEffort_resources_and_launch_failure_witness :
    (recordFlow { recLaunches := false, fileFound := true, fileSize := 5000, service := .ok "hello" }).raised = true ∧
    (recordFlow { recLaunches := false, fileFound := true, fileSize := 5000, service := .ok "hello" }).recording = false ∧
    (recordFlow { recLaunches := false, fileFound := true, fileSize := 5000, service := .ok "hello" }).fileNow = false ∧
    (recordFlow { recLaunches := false, fileFound := true, fileSize := 5000, service := .ok "hello" }).transcribeCalled = false ∧
    (recordFlow { recLaunches := false, fileFound := true, fileSize := 5000, service := .ok "hello" }).injected = none :=
  bestEffort_resources_and_launch_failure.2.2
    { recLaunches := false, fileFound := true, fileSize := 5000, service := .ok "hello" } rfl

/-! ## The toggle state machine: invariant and claim C1 -/

theorem vsInv_init : VSInv vsInit := by
  refine ⟨?_, ?_, ?_, ?_, ?_⟩ <;> simp [vsInit, VSInv]

theorem vsInv_step (s s2 : VS) (e : Ev) (hInv : VSInv s)
    (h : vsStep s e = some s2) : VSInv s2 := by
  obtain ⟨h1, h2, h3, h4, h5⟩ := hInv
  cases e with
  | toggle =>
    simp only [vsStep] at h
    by_cases hr : s.recording = true
    · rw [if_pos hr] at h
      by_cases hp : s.proc = some true
      · rw [if_pos hp] at h
        injection h with h0
        subst h0
        refine ⟨by simp, ?_, h3, h4, ?_⟩
        · simp [h2, hp]
        · intro hrec
          rw [hr] at hrec
          cases hrec
      · rw [if_neg hp] at h
        injection h with h0
        subst h0
        exact ⟨h1, h2, h3, h4, h5⟩
    · rw [if_neg hr] at h
      injection h with h0
      subst h0
      have hrec : s.recording = false := by
        cases hb : s.recording
        · rfl
        · exact absurd hb hr
      have hidle : s.bg = .idle := h5 hrec
      have hnp : s.proc ≠ some true := by
        intro hp
        rw [h1 hp] at hidle
        cases hidle
      refine ⟨?_, ?_, ?_, ?_, ?_⟩
      · intro hp
        exact absurd hp hnp
      · simpa using h2
      · show s.spawned ≤ s.cycles + 1
        omega
      · intro _
        show s.spawned < s.cycles + 1
        omega
      · simp
  | popen =>
    simp only [vsStep] at h
    split at h
    · rename_i hbg
      injection h with h0
      subst h0
      have hnp : s.proc ≠ some true := by
        intro hp
        rw [h1 hp] at hbg
        cases hbg
      have hlive : s.liveProcs = 0 := by
        rw [h2, if_neg hnp]
      have hsp := h4 hbg
      refine ⟨by simp, ?_, ?_, ?_, ?_⟩
      · show s.liveProcs + 1 = if (some true : Option Bool) = some true then 1 else 0
        simp [hlive]
      · show s.spawned + 1 ≤ s.cycles
        omega
      · intro hl
        simp at hl
      · intro hrec
        have := h5 hrec
        rw [hbg] at this
        cases this
    · cases h
  | popenFail =>
    simp only [vsStep] at h
    split at h
    · rename_i hbg
      injection h with h0
      subst h0
      refine ⟨?_, by simpa using h2, h3, by simp, by simp⟩
      intro hp
      have := h1 hp
      rw [hbg] at this
      cases this
    · cases h
  | recExit =>
    simp only [vsStep] at h
    split at h
    · rename_i hc
      obtain ⟨hbg, hp⟩ := hc
      injection h with h0
      subst h0
      refine ⟨by simp, by simp [h2, hp], h3, ?_, ?_⟩
      · intro hl
        simp only at hl
        rw [hbg] at hl
        cases hl
      · intro hrec
        have := h5 hrec
        rw [hbg] at this
        cases this
    · cases h
  | waitRet =>
    simp only [vsStep] at h
    split at h
    · rename_i hc
      obtain ⟨hbg, hp⟩ := hc
      injection h with h0
      subst h0
      refine ⟨?_, by simpa using h2, h3, by simp, ?_⟩
      · intro hptrue
        simp only at hptrue
        rw [hp] at hptrue
        cases hptrue
      · intro hrec
        have := h5 hrec
        rw [hbg] at this
        cases this
    · cases h
  | finish =>
    simp only [vsStep] at h
    split at h
    · rename_i hbg
      injection h with h0
      subst h0
      refine ⟨?_, by simpa using h2, h3, by simp, by simp⟩
      intro hp
      have := h1 hp
      rw [hbg] at this
      cases this
    · cases h

theorem vsRunFrom_inv :
    ∀ (es : List Ev) (s s2 : VS), VSInv s → vsRunFrom s es = some s2 → VSInv s2 := by
  intro es
  induction es with
  | nil =>
    intro s s2 h hr
    simp only [vsRunFrom] at hr
    injection hr with h0
    subst h0
    exact h
  | cons e es ih =>
    intro s s2 h hr
    simp only [vsRunFrom] at hr
    cases hstep : vsStep s e with
    | none => rw [hstep] at hr; cases hr
    | some s1 =>
      rw [hstep] at hr
      exact ih s1 s2 (vsInv_step s s1 e h hstep) hr

/-- Claim C1: over every sequence of events — in particular every sequence
of `toggle()` calls interleaved with the background thread's steps — at most
one recorder subprocess is live at any time, and no more recorders are ever
spawned than Idle-state toggles occurred; a spawn only ever happens from a
state with zero live recorders.  Moreover a `toggle()` while Idle moves to
Recording (starting one cycle, whose single `Popen` is then enabled); a
`toggle()` while the recorder is running requests its termination
(graceful `terminate`, bounded `wait`, then `kill` — leaving it dead)
without touching the spawn count; and a `toggle()` after the recorder has
exited but before the cycle closes changes nothing: it spawns nothing and
terminates nothing. -/
theorem voiceSession_toggle_at_most_one_recorder (es : List Ev) (s : VS)
    (h : vsRun es = some s) :
    s.liveProcs ≤ 1 ∧
    s.spawned ≤ s.cycles ∧
    (∀ s2, vsStep s .popen = some s2 → s.liveProcs = 0) ∧
    (s.recording = false →
      vsStep s .toggle =
        some { s with recording := true, bg := .launched, cycles := s.cycles + 1 } ∧
      vsStep { s with recording := true, bg := .launched, cycles := s.cycles + 1 }
          .popen ≠ none) ∧
    (s.recording = true → s.proc = some true →
      vsStep s .toggle = some { s with proc := some false, liveProcs := s.liveProcs - 1 }) ∧
    (s.recording = true → s.proc ≠ some true → vsStep s .toggle = some s) := by
  have hinv := vsRunFrom_inv es vsInit s vsInv_init h
  obtain ⟨h1, h2, h3, h4, h5⟩ := hinv
  refine ⟨?_, h3, ?_, ?_, ?_, ?_⟩
  · rw [h2]
    split <;> omega
  · intro s2 hstep
    simp only [vsStep] at hstep
    split at hstep
    · rename_i hbg
      have hnp : s.proc ≠ some true := by
        intro hp
        rw [h1 hp] at hbg
        cases hbg
      rw [h2, if_neg hnp]
    · cases hstep
  · intro hrec
    constructor
    · simp [vsStep, hrec]
    · simp [vsStep]
  · intro hrec hp
    simp [vsStep, hrec, hp]
  · intro hrec hp
    simp [vsStep, hrec, hp]

/-- Witness for C1: the live-recorder bound in the state reached by the
five-event trace of one complete natural cycle. -/
theorem voiceSession_toggle_at_most_one_recorder_witness :
    ({ recording := false, proc := some false, bg := .idle, liveProcs := 0, spawned := 1, cycles := 1 } : VS).liveProcs ≤ 1 :=
  (voiceSession_toggle_at_most_one_recorder
    [.toggle, .popen, .recExit, .waitRet, .finish]
    { recording := false, proc := some false, bg := .idle, liveProcs := 0, spawned := 1, cycles := 1 }
    (by decide)).1

/-! ## Wire protocol: round-trip lemmas -/

theorem char_isValidCharNat (c : Char) : Char.isValidCharNat c.toNat := by
  rcases c.valid with h | ⟨h1, h2⟩
  · left
    exact h
  · right
    exact ⟨h1, h2⟩

theorem strCodes_valid (v : String) : ∀ n ∈ strCodes v, Char.isValidCharNat n := by
  intro n hn
  simp only [strCodes, List.mem_map] at hn
  obtain ⟨c, _, rfl⟩ := hn
  exact char_isValidCharNat c

theorem stringOfCodes_strCodes (v : String) : stringOfCodes (strCodes v) = v := by
  simp only [stringOfCodes, strCodes, List.map_map]
  have hmap : v.data.map (Char.ofNat ∘ Char.toNat) = v.data := by
    have : (Char.ofNat ∘ Char.toNat) = id := funext Char.ofNat_toNat
    rw [this, List.map_id]
  rw [hmap]

theorem parseHexDigit_hexDigit (d : Nat) (h : d < 16) :
    parseHexDigit (hexDigit d) = some d := by
  interval_cases d <;> decide

theorem parse4Hex_hex4 (n : Nat) (r : List Nat) (h : n < 65536) :
    parse4Hex (hex4 n ++ r) = some (n, r) := by
  have h1 : n / 4096 % 16 < 16 := Nat.mod_lt _ (by norm_num)
  have h2 : n / 256 % 16 < 16 := Nat.mod_lt _ (by norm_num)
  have h3 : n / 16 % 16 < 16 := Nat.mod_lt _ (by norm_num)
  have h4 : n % 16 < 16 := Nat.mod_lt _ (by norm_num)
  simp only [hex4, List.cons_append, List.nil_append, parse4Hex,
    parseHexDigit_hexDigit _ h1, parseHexDigit_hexDigit _ h2,
    parseHexDigit_hexDigit _ h3, parseHexDigit_hexDigit _ h4,
    Option.bind_eq_bind, Option.some_bind, Option.some.injEq, Prod.mk.injEq,
    and_true]
  omega

theorem escapeCode_length_pos (n : Nat) : 1 ≤ (escapeCode n).length := by
  unfold escapeCode
  split_ifs <;> simp [hex4]

theorem length_le_escapeString (cs : List Nat) :
    cs.length ≤ (escapeString cs).length := by
  induction cs with
  | nil => simp [escapeString]
  | cons n cs ih =>
    simp only [escapeString, List.flatMap_cons, List.length_append, List.length_cons]
    have := escapeCode_length_pos n
    have : cs.length ≤ (List.flatMap cs escapeCode).length := by
      simpa [escapeString] using ih
    omega

theorem parseStrBody_escShort (fuel : Nat) (tail : List Nat) :
    (∀ n ∈ [34, 92, 8, 9, 10, 12, 13],
      parseStrBody (fuel + 1) (escapeCode n ++ tail) =
        match parseStrBody fuel tail with
        | none => none
        | some (cs, r) => some (n :: cs, r)) := by
  intro n hn
  fin_cases hn <;> simp [escapeCode, parseStrBody, parseEscape]

theorem parseStrBody_escPrintable (n : Nat) (fuel : Nat) (tail : List Nat)
    (h34 : n ≠ 34) (h92 : n ≠ 92) (hpr : 32 ≤ n ∧ n ≤ 126) :
    parseStrBody (fuel + 1) (escapeCode n ++ tail) =
      match parseStrBody fuel tail with
      | none => none
      | some (cs, r) => some (n :: cs, r) := by
  have he : escapeCode n = [n] := by
    unfold escapeCode
    rw [if_neg h34, if_neg h92, if_neg (by omega : ¬ n = 8),
      if_neg (by omega : ¬ n = 9), if_neg (by omega : ¬ n = 10),
      if_neg (by omega : ¬ n = 12), if_neg (by omega : ¬ n = 13), if_pos hpr]
  rw [he]
  simp only [List.cons_append, List.nil_append, parseStrBody]
  rw [if_neg h34, if_neg h92, if_neg (by omega : ¬ n < 32)]
  rfl

theorem parseStrBody_backslash (fuel : Nat) (R : List Nat) (n : Nat)
    (tail : List Nat) (hesc : parseEscape R = some (n, tail)) :
    parseStrBody (fuel + 1) (92 :: R) =
      match parseStrBody fuel tail with
      | none => none
      | some (cs, r) => some (n :: cs, r) := by
  simp only [parseStrBody]
  rw [hesc]
  simp

theorem parseStrBody_escBMP (n : Nat) (fuel : Nat) (tail : List Nat)
    (hn : Char.isValidCharNat n) (hbmp : n < 65536)
    (h34 : n ≠ 34) (h92 : n ≠ 92) (h8 : n ≠ 8) (h9 : n ≠ 9) (h10 : n ≠ 10)
    (h12 : n ≠ 12) (h13 : n ≠ 13) (hpr : ¬ (32 ≤ n ∧ n ≤ 126)) :
    parseStrBody (fuel + 1) (escapeCode n ++ tail) =
      match parseStrBody fuel tail with
      | none => none
      | some (cs, r) => some (n :: cs, r) := by
  have hr1 : ¬ (55296 ≤ n ∧ n ≤ 56319) := by
    rcases hn with h | h <;> omega
  have hr2 : ¬ (56320 ≤ n ∧ n ≤ 57343) := by
    rcases hn with h | h <;> omega
  have he : escapeCode n = 92 :: 117 :: hex4 n := by
    unfold escapeCode
    rw [if_neg h34, if_neg h92, if_neg h8, if_neg h9, if_neg h10, if_neg h12,
      if_neg h13, if_neg hpr, if_pos hbmp]
  rw [he]
  have hesc : parseEscape (117 :: (hex4 n ++ tail)) = some (n, tail) := by
    simp [parseEscape, parse4Hex_hex4 n tail hbmp, hr1, hr2]
  simp only [List.cons_append]
  exact parseStrBody_backslash fuel _ n tail hesc

theorem parseStrBody_escAstral (n : Nat) (fuel : Nat) (tail : List Nat)
    (hn : Char.isValidCharNat n) (hge : 65536 ≤ n) :
    parseStrBody (fuel + 1) (escapeCode n ++ tail) =
      match parseStrBody fuel tail with
      | none => none
      | some (cs, r) => some (n :: cs, r) := by
  have hn2 : n < 1114112 := by
    rcases hn with h | h
    · omega
    · omega
  have hq : (n - 65536) / 1024 ≤ 1023 := by omega
  have hhi16 : 55296 + (n - 65536) / 1024 < 65536 := by omega
  have hlo16 : 56320 + (n - 65536) % 1024 < 65536 := by omega
  have hhir : 55296 ≤ 55296 + (n - 65536) / 1024 ∧
      55296 + (n - 65536) / 1024 ≤ 56319 := by omega
  have hlor : 56320 ≤ 56320 + (n - 65536) % 1024 ∧
      56320 + (n - 65536) % 1024 ≤ 57343 := by omega
  have he : escapeCode n =
      (92 :: 117 :: hex4 (55296 + (n - 65536) / 1024)) ++
      (92 :: 117 :: hex4 (56320 + (n - 65536) % 1024)) := by
    unfold escapeCode
    rw [if_neg (by omega : ¬ n = 34), if_neg (by omega : ¬ n = 92),
      if_neg (by omega : ¬ n = 8), if_neg (by omega : ¬ n = 9),
      if_neg (by omega : ¬ n = 10), if_neg (by omega : ¬ n = 12),
      if_neg (by omega : ¬ n = 13), if_neg (by omega : ¬ (32 ≤ n ∧ n ≤ 126)),
      if_neg (by omega : ¬ n < 65536)]
  rw [he]
  have hesc : parseEscape (117 :: (hex4 (55296 + (n - 65536) / 1024) ++
      (92 :: 117 :: (hex4 (56320 + (n - 65536) % 1024) ++ tail)))) =
      some (n, tail) := by
    simp only [parseEscape,
      parse4Hex_hex4 (55296 + (n - 65536) / 1024) _ hhi16]
    rw [if_pos hhir]
    simp only [parse4Hex_hex4 (56320 + (n - 65536) % 1024) tail hlo16]
    simp [hlor.1, hlor.2]
    omega
  have hsh : ((92 :: 117 :: hex4 (55296 + (n - 65536) / 1024)) ++
        (92 :: 117 :: hex4 (56320 + (n - 65536) % 1024))) ++ tail =
      92 :: 117 :: (hex4 (55296 + (n - 65536) / 1024) ++
        (92 :: 117 :: (hex4 (56320 + (n - 65536) % 1024) ++ tail))) := by
    simp [List.append_assoc]
  rw [hsh]
  exact parseStrBody_backslash fuel _ n tail hesc

theorem parseStrBody_escapeCode (n : Nat) (hn : Char.isValidCharNat n)
    (fuel : Nat) (tail : List Nat) :
    parseStrBody (fuel + 1) (escapeCode n ++ tail) =
      match parseStrBody fuel tail with
      | none => none
      | some (cs, r) => some (n :: cs, r) := by
  by_cases h34 : n = 34
  · exact h34 ▸ parseStrBody_escShort fuel tail 34 (by simp)
  by_cases h92 : n = 92
  · exact h92 ▸ parseStrBody_escShort fuel tail 92 (by simp)
  by_cases h8 : n = 8
  · exact h8 ▸ parseStrBody_escShort fuel tail 8 (by simp)
  by_cases h9 : n = 9
  · exact h9 ▸ parseStrBody_escShort fuel tail 9 (by simp)
  by_cases h10 : n = 10
  · exact h10 ▸ parseStrBody_escShort fuel tail 10 (by simp)
  by_cases h12 : n = 12
  · exact h12 ▸ parseStrBody_escShort fuel tail 12 (by simp)
  by_cases h13 : n = 13
  · exact h13 ▸ parseStrBody_escShort fuel tail 13 (by simp)
  by_cases hpr : 32 ≤ n ∧ n ≤ 126
  · exact parseStrBody_escPrintable n fuel tail h34 h92 hpr
  by_cases hbmp : n < 65536
  · exact parseStrBody_escBMP n fuel tail hn hbmp h34 h92 h8 h9 h10 h12 h13 hpr
  · exact parseStrBody_escAstral n fuel tail hn (by omega)

theorem parseStrBody_escapeString (cs : List Nat) :
    ∀ (fuel : Nat) (r : List Nat), (∀ n ∈ cs, Char.isValidCharNat n) →
      cs.length < fuel →
      parseStrBody fuel (escapeString cs ++ (34 :: r)) = some (cs, r) := by
  induction cs with
  | nil =>
    intro fuel r _ hf
    obtain ⟨f, rfl⟩ : ∃ f, fuel = f + 1 := ⟨fuel - 1, by omega⟩
    simp [escapeString, parseStrBody]
  | cons n cs ih =>
    intro fuel r hv hf
    obtain ⟨f, rfl⟩ : ∃ f, fuel = f + 1 := ⟨fuel - 1, by omega⟩
    have hass : escapeString (n :: cs) ++ (34 :: r) =
        escapeCode n ++ (escapeString cs ++ (34 :: r)) := by
      simp [escapeString, List.append_assoc]
    rw [hass, parseStrBody_escapeCode n (hv n (by simp)) f _]
    rw [ih f r (fun m hm => hv m (by simp [hm]))
      (by simp only [List.length_cons] at hf; omega)]

theorem parseJString_quote (cs : List Nat) (r : List Nat)
    (hv : ∀ n ∈ cs, Char.isValidCharNat n) :
    parseJString (quoteString cs ++ r) = some (cs, r) := by
  have hsh : quoteString cs ++ r = 34 :: (escapeString cs ++ (34 :: r)) := by
    simp [quoteString, List.append_assoc]
  rw [hsh]
  show parseStrBody (escapeString cs ++ (34 :: r)).length
      (escapeString cs ++ (34 :: r)) = some (cs, r)
  apply parseStrBody_escapeString cs _ r hv
  have := length_le_escapeString cs
  simp only [List.length_append, List.length_cons]
  omega

theorem expectBytes_append (p s : List Nat) : expectBytes p (p ++ s) = some s := by
  induction p with
  | nil => rfl
  | cons b p ih => simp [expectBytes, ih]

theorem expectBytes_self (p : List Nat) : expectBytes p p = some [] := by
  simpa using expectBytes_append p []

theorem beUnpack_bePack (n : Nat) (h : n < 4294967296) :
    beUnpack (bePack n) = n := by
  simp [bePack, beUnpack, List.foldl]
  omega

theorem expectBytes_one (b : Nat) (s : List Nat) :
    expectBytes [b] (b :: s) = some s := by
  simp [expectBytes]

theorem expectBytes_two (a b : Nat) (s : List Nat) :
    expectBytes [a, b] (a :: b :: s) = some s := by
  simp [expectBytes]

theorem jsonLoads_dumps_ping : jsonLoadsMsg (jsonDumps Msg.ping) = some Msg.ping := by
  have hty := fun r => parseJString_quote (strCodes "type") r (strCodes_valid "type")
  have htag := fun r => parseJString_quote (strCodes "ping") r (strCodes_valid "ping")
  simp [jsonDumps, jsonMember, jsonLoadsMsg, List.append_assoc,
    expectBytes_one, expectBytes_two, hty, htag]

theorem jsonLoads_dumps_pong (m : String) :
    jsonLoadsMsg (jsonDumps (Msg.pong m)) = some (Msg.pong m) := by
  have hty := fun r => parseJString_quote (strCodes "type") r (strCodes_valid "type")
  have htag := fun r => parseJString_quote (strCodes "pong") r (strCodes_valid "pong")
  have hkey := fun r => parseJString_quote (strCodes "model") r (strCodes_valid "model")
  have hval := fun r => parseJString_quote (strCodes m) r (strCodes_valid m)
  have hne1 : strCodes "pong" ≠ strCodes "ping" := by decide
  simp [jsonDumps, jsonMember, jsonLoadsMsg, parseNamedField, List.append_assoc,
    expectBytes_one, expectBytes_two, hty, htag, hkey, hval, hne1,
    stringOfCodes_strCodes]

theorem jsonLoads_dumps_transcribe (p : String) :
    jsonLoadsMsg (jsonDumps (Msg.transcribe p)) = some (Msg.transcribe p) := by
  have hty := fun r => parseJString_quote (strCodes "type") r (strCodes_valid "type")
  have htag := fun r =>
    parseJString_quote (strCodes "transcribe") r (strCodes_valid "transcribe")
  have hkey := fun r =>
    parseJString_quote (strCodes "audio_path") r (strCodes_valid "audio_path")
  have hval := fun r => parseJString_quote (strCodes p) r (strCodes_valid p)
  have hne1 : strCodes "transcribe" ≠ strCodes "ping" := by decide
  have hne2 : strCodes "transcribe" ≠ strCodes "pong" := by decide
  simp [jsonDumps, jsonMember, jsonLoadsMsg, parseNamedField, List.append_assoc,
    expectBytes_one, expectBytes_two, hty, htag, hkey, hval, hne1, hne2,
    stringOfCodes_strCodes]

theorem jsonLoads_dumps_result (t : String) :
    jsonLoadsMsg (jsonDumps (Msg.result t)) = some (Msg.result t) := by
  have hty := fun r => parseJString_quote (strCodes "type") r (strCodes_valid "type")
  have htag := fun r => parseJString_quote (strCodes "result") r (strCodes_valid "result")
  have hkey := fun r => parseJString_quote (strCodes "text") r (strCodes_valid "text")
  have hval := fun r => parseJString_quote (strCodes t) r (strCodes_valid t)
  have hne1 : strCodes "result" ≠ strCodes "ping" := by decide
  have hne2 : strCodes "result" ≠ strCodes "pong" := by decide
  have hne3 : strCodes "result" ≠ strCodes "transcribe" := by decide
  simp [jsonDumps, jsonMember, jsonLoadsMsg, parseNamedField, List.append_assoc,
    expectBytes_one, expectBytes_two, hty, htag, hkey, hval, hne1, hne2, hne3,
    stringOfCodes_strCodes]

theorem jsonLoads_dumps_error (e : String) :
    jsonLoadsMsg (jsonDumps (Msg.error e)) = some (Msg.error e) := by
  have hty := fun r => parseJString_quote (strCodes "type") r (strCodes_valid "type")
  have htag := fun r => parseJString_quote (strCodes "error") r (strCodes_valid "error")
  have hkey := fun r => parseJString_quote (strCodes "message") r (strCodes_valid "message")
  have hval := fun r => parseJString_quote (strCodes e) r (strCodes_valid e)
  have hne1 : strCodes "error" ≠ strCodes "ping" := by decide
  have hne2 : strCodes "error" ≠ strCodes "pong" := by decide
  have hne3 : strCodes "error" ≠ strCodes "transcribe" := by decide
  have hne4 : strCodes "error" ≠ strCodes "result" := by decide
  simp [jsonDumps, jsonMember, jsonLoadsMsg, parseNamedField, List.append_assoc,
    expectBytes_one, expectBytes_two, hty, htag, hkey, hval, hne1, hne2, hne3,
    hne4, stringOfCodes_strCodes]

theorem jsonLoadsMsg_dumps (m : Msg) : jsonLoadsMsg (jsonDumps m) = some m := by
  cases m with
  | ping => exact jsonLoads_dumps_ping
  | pong s => exact jsonLoads_dumps_pong s
  | transcribe s => exact jsonLoads_dumps_transcribe s
  | result s => exact jsonLoads_dumps_result s
  | error s => exact jsonLoads_dumps_error s

/-- Claim C4: the frame on the wire is a 4-byte big-endian unsigned length
prefix followed by exactly that many bytes of UTF-8-encoded JSON (the
`ensure_ascii` output is pure ASCII, on which UTF-8 is the identity), and
for every protocol message whose payload fits the 32-bit length field —
from the empty-field messages up through arbitrarily large string fields —
`recv_message` after `send_message` reproduces the discriminator and every
field exactly. -/
theorem protocol_roundtrip (m : Msg) (h : (jsonDumps m).length < 4294967296) :
    sendMessage m = bePack (jsonDumps m).length ++ jsonDumps m ∧
    recvMessage (sendMessage m) = .ok m := by
  refine ⟨rfl, ?_⟩
  have hlen4 : (bePack (jsonDumps m).length).length = 4 := rfl
  have hlen : (sendMessage m).length = 4 + (jsonDumps m).length := by
    simp [sendMessage, bePack]
    omega
  have htake : (sendMessage m).take 4 = bePack (jsonDumps m).length := by
    rw [sendMessage, ← hlen4, List.take_left]
  have hdrop : (sendMessage m).drop 4 = jsonDumps m := by
    rw [sendMessage, ← hlen4, List.drop_left]
  simp only [recvMessage, recvExact]
  rw [if_pos (by omega : 4 ≤ (sendMessage m).length), htake, hdrop]
  simp [beUnpack_bePack _ h, jsonLoadsMsg_dumps]

/-- Witness for C4: the round-trip at the concrete message
`result {text: "hello world"}`. -/
theorem protocol_roundtrip_witness :
    sendMessage (Msg.result "hello world") =
      bePack (jsonDumps (Msg.result "hello world")).length ++
        jsonDumps (Msg.result "hello world") ∧
    recvMessage (sendMessage (Msg.result "hello world")) =
      .ok (Msg.result "hello world") :=
  protocol_roundtrip (Msg.result "hello world") (by decide)
